import Mathlib

/-!
# A verification development for the cachy-chroot device-resolution engine

Shallow embedding of the storage-resolution and teardown logic of the
cachy-chroot helper (src/block_device.rs, src/luks.rs, src/btrfs.rs,
src/zfs.rs, src/main.rs).  Pure string manipulation is embedded over
`List Char`; external capability calls (mount, umount, cryptsetup, zpool,
zfs) are modelled as emitted events, with their reported success/failure
outcomes supplied as explicit inputs.
-/

namespace CachyChroot

/-! ## Character-list string primitives

Rust's `str::strip_prefix`, `str::trim_start_matches`, `str::split` and
`str::split_whitespace` are embedded over `List Char`. -/

/-- `dropPref? p s` is Rust's `s.strip_prefix(p)`: `some` of the remainder
when `p` is a prefix of `s`, otherwise `none`. -/
def dropPref? : List Char → List Char → Option (List Char)
  | [], s => some s
  | _ :: _, [] => none
  | p :: ps, c :: cs => if p = c then dropPref? ps cs else none

theorem dropPref?_eq_some {p s v : List Char} :
    dropPref? p s = some v ↔ s = p ++ v := by
  induction p generalizing s with
  | nil => cases s <;> simp [dropPref?]
  | cons a ps ih =>
    cases s with
    | nil => simp [dropPref?]
    | cons c cs =>
      by_cases h : a = c
      · subst h
        simp [dropPref?, ih]
      · simp [dropPref?, h, Ne.symm h]

theorem dropPref?_eq_none {p s : List Char} :
    dropPref? p s = none ↔ ∀ v, s ≠ p ++ v := by
  rw [← not_exists]
  constructor
  · intro h ⟨v, hv⟩
    have := dropPref?_eq_some.mpr hv
    rw [h] at this
    exact Option.noConfusion this
  · intro h
    cases hd : dropPref? p s with
    | none => rfl
    | some v => exact absurd ⟨v, dropPref?_eq_some.mp hd⟩ h

/-- String-level wrapper for `dropPref?`. -/
def stripPrefix? (p s : String) : Option String :=
  match dropPref? p.data s.data with
  | some r => some (String.mk r)
  | none => none

/-! ## Block devices (src/block_device.rs) -/

/-- One lsblk record: `BlockDevice` of src/block_device.rs. -/
structure BlockDevice where
  name : String
  fs_type : String
  uuid : String
  partuuid : Option String
  label : Option String
  partlabel : Option String
  deriving Repr, DecidableEq

/-- `BlockDevice::get_id` (src/block_device.rs): the label for a
`zfs_member` filesystem that has one, the uuid otherwise. -/
def BlockDevice.get_id (d : BlockDevice) : String :=
  if d.fs_type = "zfs_member" then
    match d.label with
    | some label => label
    | none => d.uuid
  else d.uuid

/-- `BlockDevice::matches_fstab_entry` (src/block_device.rs):
a chain of prefix checks; a prefixed branch whose device attribute is
absent falls through to the next branch, and the final fallback compares
the raw reference with the device name. -/
def BlockDevice.matches_fstab_entry (d : BlockDevice) (id : String) : Bool :=
  match stripPrefix? "UUID=" id with
  | some uuid => uuid = d.uuid
  | none =>
  match stripPrefix? "/dev/disk/by-uuid/" id with
  | some uuid => uuid = d.uuid
  | none =>
  match stripPrefix? "PARTUUID=" id, d.partuuid with
  | some partuuid, some device_partuuid => partuuid = device_partuuid
  | _, _ =>
  match stripPrefix? "/dev/disk/by-partuuid/" id, d.partuuid with
  | some partuuid, some device_partuuid => partuuid = device_partuuid
  | _, _ =>
  match stripPrefix? "LABEL=" id, d.label with
  | some label, some device_label => label = device_label
  | _, _ =>
  match stripPrefix? "PARTLABEL=" id, d.partlabel with
  | some partlabel, some device_partlabel => partlabel = device_partlabel
  | _, _ => id = d.name

/-! Data of the string literals used by `matches_fstab_entry`, as explicit
character lists, so that prefix branches reduce symbolically. -/

theorem data_uuid_eq : ("UUID=" : String).data = ['U', 'U', 'I', 'D', '='] := rfl

theorem data_partuuid_eq :
    ("PARTUUID=" : String).data = ['P', 'A', 'R', 'T', 'U', 'U', 'I', 'D', '='] := rfl

theorem data_label_eq : ("LABEL=" : String).data = ['L', 'A', 'B', 'E', 'L', '='] := rfl

theorem data_partlabel_eq :
    ("PARTLABEL=" : String).data
      = ['P', 'A', 'R', 'T', 'L', 'A', 'B', 'E', 'L', '='] := rfl

theorem data_by_uuid_eq :
    ("/dev/disk/by-uuid/" : String).data
      = ['/', 'd', 'e', 'v', '/', 'd', 'i', 's', 'k', '/', 'b', 'y', '-',
         'u', 'u', 'i', 'd', '/'] := rfl

theorem data_by_partuuid_eq :
    ("/dev/disk/by-partuuid/" : String).data
      = ['/', 'd', 'e', 'v', '/', 'd', 'i', 's', 'k', '/', 'b', 'y', '-',
         'p', 'a', 'r', 't', 'u', 'u', 'i', 'd', '/'] := rfl

/-- C10: for every block device whose filesystem type is `zfs_member` but whose
label is absent, `get_id` falls back to the uuid; and `get_id` is total — for
every device it returns either the uuid or the device's label. -/
theorem c10_get_id_total (d : BlockDevice) :
    (d.fs_type = "zfs_member" → d.label = none → d.get_id = d.uuid)
      ∧ (d.get_id = d.uuid ∨ d.label = some d.get_id) := by
  constructor
  · intro h hl
    simp [BlockDevice.get_id, h, hl]
  · by_cases h : d.fs_type = "zfs_member"
    · cases hl : d.label with
      | none => exact Or.inl (by simp [BlockDevice.get_id, h, hl])
      | some l => exact Or.inr (by simp [BlockDevice.get_id, h, hl])
    · exact Or.inl (by simp [BlockDevice.get_id, h])

/-- Witness for C10: a concrete `zfs_member` device without a label resolves to
its uuid. -/
theorem c10_get_id_total_witness :
    (BlockDevice.mk "/dev/sda1" "zfs_member" "uuid-1" none none none).get_id
      = (BlockDevice.mk "/dev/sda1" "zfs_member" "uuid-1" none none none).uuid :=
  (c10_get_id_total _).1 rfl rfl

/-- C4 (counterexample): the claim "a reference with a prefix whose
corresponding attribute is absent never matches" fails as stated: a device
whose *name* is literally the prefixed reference string matches through the
final name-comparison fallback even though the attribute is absent. -/
theorem c4_counterexample :
    (BlockDevice.mk "PARTUUID=abcd" "ext4" "u1" none none none).matches_fstab_entry
        "PARTUUID=abcd" = true
      ∧ (BlockDevice.mk "PARTUUID=abcd" "ext4" "u1" none none none).partuuid = none := by
  decide

/-- C4 (amended): for a reference carrying one of the prefixes `PARTUUID=`,
`/dev/disk/by-partuuid/`, `LABEL=`, `PARTLABEL=` whose corresponding device
attribute is absent, `matches_fstab_entry` never matches through that
attribute: the result degenerates to the final exact comparison of the whole
reference string with the device name (hence `false` whenever the name differs
from the reference). -/
theorem c4_missing_attribute_falls_back_to_name
    (d : BlockDevice) (id : String) (v : List Char) :
    (d.partuuid = none → id.data = "PARTUUID=".data ++ v →
        d.matches_fstab_entry id = (id = d.name : Bool))
      ∧ (d.partuuid = none → id.data = "/dev/disk/by-partuuid/".data ++ v →
          d.matches_fstab_entry id = (id = d.name : Bool))
      ∧ (d.label = none → id.data = "LABEL=".data ++ v →
          d.matches_fstab_entry id = (id = d.name : Bool))
      ∧ (d.partlabel = none → id.data = "PARTLABEL=".data ++ v →
          d.matches_fstab_entry id = (id = d.name : Bool)) := by
  refine ⟨fun h hid => ?_, fun h hid => ?_, fun h hid => ?_, fun h hid => ?_⟩ <;>
    first
    | (rw [data_partuuid_eq] at hid
       simp [BlockDevice.matches_fstab_entry, stripPrefix?, dropPref?,
         data_uuid_eq, data_partuuid_eq, data_label_eq, data_partlabel_eq,
         data_by_uuid_eq, data_by_partuuid_eq, hid, h])
    | (rw [data_by_partuuid_eq] at hid
       simp [BlockDevice.matches_fstab_entry, stripPrefix?, dropPref?,
         data_uuid_eq, data_partuuid_eq, data_label_eq, data_partlabel_eq,
         data_by_uuid_eq, data_by_partuuid_eq, hid, h])
    | (rw [data_label_eq] at hid
       simp [BlockDevice.matches_fstab_entry, stripPrefix?, dropPref?,
         data_uuid_eq, data_partuuid_eq, data_label_eq, data_partlabel_eq,
         data_by_uuid_eq, data_by_partuuid_eq, hid, h])
    | (rw [data_partlabel_eq] at hid
       simp [BlockDevice.matches_fstab_entry, stripPrefix?, dropPref?,
         data_uuid_eq, data_partuuid_eq, data_label_eq, data_partlabel_eq,
         data_by_uuid_eq, data_by_partuuid_eq, hid, h])

/-- Witness for the amended C4: a concrete device without a partuuid, checked
against a `PARTUUID=` reference that is not its name, does not match. -/
theorem c4_missing_attribute_falls_back_to_name_witness :
    (BlockDevice.mk "/dev/sda2" "ext4" "u2" none none none).matches_fstab_entry
        "PARTUUID=abcd"
      = ("PARTUUID=abcd" = "/dev/sda2" : Bool) :=
  (c4_missing_attribute_falls_back_to_name
      (BlockDevice.mk "/dev/sda2" "ext4" "u2" none none none)
      "PARTUUID=abcd" "abcd".data).1 rfl rfl

/-! ## More string primitives: `trim_start_matches`, `split`, `lines`,
`split_whitespace` -/

/-- Fueled worker for `stripRuns`. -/
def stripRunsAux (p : List Char) : Nat → List Char → List Char
  | 0, s => s
  | n + 1, s =>
    match dropPref? p s with
    | some r => stripRunsAux p n r
    | none => s

/-- Rust's `str::trim_start_matches(p)`: removes *every* leading repetition of
`p`.  For nonempty `p`, fuel `s.length` is enough to reach a fixpoint. -/
def stripRuns (p s : List Char) : List Char := stripRunsAux p s.length s

theorem stripRunsAux_spec (p : List Char) (hp : p ≠ []) :
    ∀ n s, s.length ≤ n →
      ∃ k, s = (List.replicate k p).flatten ++ stripRunsAux p n s
        ∧ dropPref? p (stripRunsAux p n s) = none := by
  intro n
  induction n with
  | zero =>
    intro s hs
    have hnil : s = [] := List.eq_nil_of_length_eq_zero (Nat.le_zero.mp hs)
    subst hnil
    refine ⟨0, by simp [stripRunsAux], ?_⟩
    cases p with
    | nil => exact absurd rfl hp
    | cons a ps => simp [stripRunsAux, dropPref?]
  | succ n ih =>
    intro s hs
    cases h : dropPref? p s with
    | none =>
      refine ⟨0, by simp [stripRunsAux, h], by simp [stripRunsAux, h]⟩
    | some r =>
      have hsr : s = p ++ r := dropPref?_eq_some.mp h
      have hplen : 1 ≤ p.length := by
        cases p with
        | nil => exact absurd rfl hp
        | cons a ps => simp
      have hr : r.length ≤ n := by
        subst hsr
        simp only [List.length_append] at hs
        omega
      obtain ⟨k, hk1, hk2⟩ := ih r hr
      have hstep : stripRunsAux p (n + 1) s = stripRunsAux p n r := by
        simp [stripRunsAux, h]
      refine ⟨k + 1, ?_, by rw [hstep]; exact hk2⟩
      rw [hstep, hsr]
      conv_lhs => rw [hk1]
      simp [List.replicate_succ]

/-- Every string is a run of copies of `p` followed by `stripRuns p s`, and
`stripRuns p s` carries no further leading `p`. -/
theorem stripRuns_spec (p s : List Char) (hp : p ≠ []) :
    ∃ k, s = (List.replicate k p).flatten ++ stripRuns p s
      ∧ dropPref? p (stripRuns p s) = none :=
  stripRunsAux_spec p hp s.length s le_rfl

/-- Worker for `splitOnChar`. -/
def splitOnCharAux (c : Char) : List Char → List Char → List (List Char)
  | [], acc => [acc.reverse]
  | x :: xs, acc =>
    if x = c then acc.reverse :: splitOnCharAux c xs []
    else splitOnCharAux c xs (x :: acc)

/-- Rust's `str::split(c)`: the result is never empty; adjacent separators
produce empty fields. -/
def splitOnChar (c : Char) (s : List Char) : List (List Char) :=
  splitOnCharAux c s []

/-- Drops one trailing carriage return, as Rust's `str::lines` does. -/
def stripTrailingCR (l : List Char) : List Char :=
  match l.reverse with
  | '\r' :: rest => rest.reverse
  | _ => l

/-- Rust's `str::lines`: split at newlines, the final line ending optional,
each line stripped of a trailing carriage return. -/
def linesOf (s : List Char) : List (List Char) :=
  let parts := splitOnChar '\n' s
  let parts :=
    match parts.getLast? with
    | some [] => parts.dropLast
    | _ => parts
  parts.map stripTrailingCR

/-- Worker for `splitWS`. -/
def splitWSAux : List Char → List Char → List (List Char)
  | [], acc => if acc = [] then [] else [acc.reverse]
  | c :: cs, acc =>
    if c.isWhitespace then
      if acc = [] then splitWSAux cs [] else acc.reverse :: splitWSAux cs []
    else splitWSAux cs (c :: acc)

/-- Rust's `str::split_whitespace`: maximal nonempty runs of non-whitespace
characters (ASCII whitespace modelled; the inputs at stake are ASCII). -/
def splitWS (s : List Char) : List (List Char) := splitWSAux s []

/-! ## The crypttab key-alias parser (src/luks.rs, `list_crypttab_entries`) -/

/-- Outcome of trying to read the crypttab file, the filesystem being
external: the file may be absent, unreadable, or have contents. -/
inductive CrypttabFile where
  | missing
  | readFailed
  | content (s : String)
  deriving Repr, DecidableEq

/-- Warnings emitted by the parser. -/
inductive CryptWarn where
  | missingFile
  | unreadableFile
  | invalidEntry
  deriving Repr, DecidableEq

/-- `HashMap::insert`: replaces the value under an existing key, otherwise
appends the new binding. -/
def insertAssoc (m : List (String × String)) (k v : String) :
    List (String × String) :=
  if m.any (fun p => p.1 = k) then
    m.map (fun p => if p.1 = k then (k, v) else p)
  else m ++ [(k, v)]

/-- The per-line body of the `list_crypttab_entries` loop (src/luks.rs):
skip comment lines, warn and skip lines with fewer than two fields, and for
stored lines strip the `UUID=` prefix with `trim_start_matches` before
inserting. -/
def crypttabLineStep (acc : List (String × String) × List CryptWarn)
    (line : List Char) : List (String × String) × List CryptWarn :=
  if line.head? = some '#' then acc
  else
    match splitWS line with
    | p0 :: p1 :: _ =>
      (insertAssoc acc.1 (String.mk p0) (String.mk (stripRuns "UUID=".data p1)),
        acc.2)
    | _ => (acc.1, acc.2 ++ [CryptWarn.invalidEntry])

/-- `list_crypttab_entries` (src/luks.rs): a missing file warns only when the
root is encrypted; an unreadable file warns and yields no entries; otherwise
the lines are folded through `crypttabLineStep`. -/
def list_crypttab_entries (file : CrypttabFile) (has_luks_on_root : Bool) :
    List (String × String) × List CryptWarn :=
  match file with
  | .missing => ([], if has_luks_on_root then [CryptWarn.missingFile] else [])
  | .readFailed => ([], [CryptWarn.unreadableFile])
  | .content s => (linesOf s.data).foldl crypttabLineStep ([], [])

/-- C6 (counterexample): the claim that "exactly one well-known prefix
(`UUID=`) is stripped from the front of the device reference" fails: the
parser uses `trim_start_matches`, which strips the prefix *repeatedly*.  For
the line `cryptroot UUID=UUID=abcd` the stored reference is `abcd`, while a
single strip would store `UUID=abcd`. -/
theorem c6_counterexample :
    (list_crypttab_entries (CrypttabFile.content "cryptroot UUID=UUID=abcd") true).1
        = [("cryptroot", "abcd")]
      ∧ stripPrefix? "UUID=" "UUID=UUID=abcd" = some "UUID=abcd"
      ∧ ("abcd" : String) ≠ "UUID=abcd" := by
  decide

/-- C6 (amended): a missing crypttab yields an empty mapping, with a warning
exactly when the root is encrypted; every non-comment line with fewer than two
whitespace-separated fields contributes no mapping entry and one warning; and
every stored line has *all* leading repetitions of the `UUID=` prefix stripped
from its device reference before storage, leaving a reference with no further
leading `UUID=`. -/
theorem c6_crypttab_parser_amended :
    (∀ hl : Bool, list_crypttab_entries CrypttabFile.missing hl
        = ([], if hl then [CryptWarn.missingFile] else []))
      ∧ (∀ acc line, line.head? ≠ some '#' → (splitWS line).length < 2 →
          crypttabLineStep acc line = (acc.1, acc.2 ++ [CryptWarn.invalidEntry]))
      ∧ (∀ acc line p0 p1 rest, line.head? ≠ some '#' →
          splitWS line = p0 :: p1 :: rest →
          crypttabLineStep acc line
              = (insertAssoc acc.1 (String.mk p0)
                  (String.mk (stripRuns "UUID=".data p1)), acc.2)
            ∧ ∃ k, p1 = (List.replicate k ("UUID=".data)).flatten
                      ++ stripRuns "UUID=".data p1
                ∧ dropPref? "UUID=".data (stripRuns "UUID=".data p1) = none) := by
  refine ⟨fun hl => rfl, fun acc line h hlen => ?_, fun acc line p0 p1 rest h hsp => ?_⟩
  · simp only [crypttabLineStep, if_neg h]
    cases hsp : splitWS line with
    | nil => simp [hsp]
    | cons a t =>
      cases t with
      | nil => simp [hsp]
      | cons b t2 =>
        rw [hsp] at hlen
        simp at hlen
        omega
  · constructor
    · simp only [crypttabLineStep, if_neg h]
      simp [hsp]
    · exact stripRuns_spec _ p1 (by decide)

/-- Witness for the amended C6: a one-field line is skipped with a warning. -/
theorem c6_crypttab_parser_amended_witness :
    crypttabLineStep ([], []) ("cryptroot".data)
      = (([] : List (String × String)),
          ([] : List CryptWarn) ++ [CryptWarn.invalidEntry]) :=
  c6_crypttab_parser_amended.2.1 ([], []) ("cryptroot".data) (by decide) (by decide)

/-! ## Capability calls and reported outcomes

External capability calls (mount, umount, cryptsetup, zpool, zfs) are
modelled as emitted events.  Each invocation's *reported* outcome (the
success/failure of the spawned command) is an explicit input; a spawn error
(`Result::Err` of `join`) is outside this model, matching the spec's view of
capabilities as calls returning success or failure. -/

/-- Reported outcome of one external capability call. -/
inductive Outcome where
  | success
  | failure
  deriving Repr, DecidableEq

/-- One external capability call emitted by the engine. -/
inductive Call where
  | mount (device : String) (mount_point : String) (options : List String)
  | umount (mount_point : String) (recursive : Bool)
  | listSubvols (mount_point : String)
  | luksClose (mapped_name : String)
  | zfsUnloadKey (dataset : String)
  | zpoolExport (pool : String) (forced : Bool)
  deriving Repr, DecidableEq

/-- Recognizes a non-forced pool-export call. -/
def Call.isNormalExport : Call → Bool
  | Call.zpoolExport _ false => true
  | _ => false

/-! ## LUKS close and ZFS key unload / pool export (src/luks.rs, src/zfs.rs) -/

/-- `luks::close_device` (src/luks.rs): one `cryptsetup luksClose` on the
deterministic mapped name `luks-<uuid>`; a failure is only logged (the
returned flag), never fatal. -/
def close_device_run (d : BlockDevice) (o : Outcome) : List Call × Bool :=
  ([Call.luksClose ("luks-" ++ d.uuid)], o = Outcome.failure)

/-- `zfs::unload_zfs_key` (src/zfs.rs): one `zfs unload-key`; a failure is
only logged (the returned flag), never fatal. -/
def unload_zfs_key_run (dataset : String) (o : Outcome) : List Call × Bool :=
  ([Call.zfsUnloadKey dataset], o = Outcome.failure)

/-- Outcomes surrounding one `export_zfs_pool` invocation: the reported
outcome of the normal export, the user's answer to the forced-export
confirmation, and the reported outcome of the forced export. -/
structure ExportEnv where
  firstTry : Outcome
  allowForce : Bool
  forcedTry : Outcome
  deriving Repr, DecidableEq

/-- `zfs::export_zfs_pool` (src/zfs.rs): a normal export; on failure, a
forced export is offered by one confirmation; if the forced export fails, or
the confirmation is declined, `print_error_and_exit` runs — modelled as
`some message`, meaning the process terminates with exit code 1 after
logging that message.  `none` means the function returned normally. -/
def export_zfs_pool_run (d : BlockDevice) (env : ExportEnv) :
    List Call × Option String :=
  let pool_name := d.get_id
  match env.firstTry with
  | Outcome.success => ([Call.zpoolExport pool_name false], none)
  | Outcome.failure =>
    if env.allowForce then
      match env.forcedTry with
      | Outcome.success =>
        ([Call.zpoolExport pool_name false, Call.zpoolExport pool_name true], none)
      | Outcome.failure =>
        ([Call.zpoolExport pool_name false, Call.zpoolExport pool_name true],
          some ("Failed to export ZFS pool: " ++ pool_name
            ++ ", please perform the operation manually."))
    else
      ([Call.zpoolExport pool_name false],
        some ("Failed to export ZFS pool: " ++ pool_name
          ++ ", please perform the operation manually."))

/-- The export phase over the imported pools, in order; a `print_error_and_exit`
inside `export_zfs_pool` terminates the process, so the remaining pools are
not exported. -/
def runExports : List (BlockDevice × ExportEnv) → List Call × Option String
  | [] => ([], none)
  | p :: ps =>
    match export_zfs_pool_run p.1 p.2 with
    | (cs, some msg) => (cs, some msg)
    | (cs, none) =>
      let r := runExports ps
      (cs ++ r.1, r.2)

/-- Modelled from the spec: the session orchestrator's teardown phase (spec
§3, §4.6).  The orchestrator `main` that tracks imported pools and loaded
dataset keys is not under src/ — src/main.rs is an earlier snapshot whose
teardown knows only the root unmount and the LUKS closes — so the phase
*order* (unmount the root tree recursively, close the opened encrypted
volumes, unload the loaded dataset keys, export the imported pools) is taken
from the spec, while each phase's per-resource behavior follows
src/block_device.rs, src/luks.rs and src/zfs.rs. -/
def teardown (rootMp : String) (luks : List (BlockDevice × Outcome))
    (keys : List (String × Outcome)) (pools : List (BlockDevice × ExportEnv)) :
    List Call × Option String :=
  let closes := (luks.map (fun p => (close_device_run p.1 p.2).1)).flatten
  let unloads := (keys.map (fun p => (unload_zfs_key_run p.1 p.2).1)).flatten
  let e := runExports pools
  ([Call.umount rootMp true] ++ closes ++ unloads ++ e.1, e.2)

/-- Modelled from the spec: teardown runs after the chroot capability
returns, whatever exit status it reported (spec §4.6; in src/main.rs the
`arch-chroot` result's exit status is likewise not inspected before
teardown). -/
def session_teardown_after_chroot (chrootReported : Outcome) (rootMp : String)
    (luks : List (BlockDevice × Outcome)) (keys : List (String × Outcome))
    (pools : List (BlockDevice × ExportEnv)) : List Call × Option String :=
  teardown rootMp luks keys pools

theorem flatten_map_singleton {α β : Type} (f : α → β) (l : List α) :
    (l.map (fun a => [f a])).flatten = l.map f := by
  induction l with
  | nil => rfl
  | cons a t ih => simp [ih]

/-- C3 (counterexample): the claim that a doubly-failed export "does not
terminate the process, so teardown continues" fails: when the normal export
fails and the accepted forced export also fails, `export_zfs_pool` calls
`print_error_and_exit`, terminating the process (modelled by the `some`
message). -/
theorem c3_counterexample :
    (export_zfs_pool_run
        (BlockDevice.mk "/dev/sdb1" "zfs_member" "uz1" none (some "zpcachyos") none)
        (ExportEnv.mk Outcome.failure true Outcome.failure)).2
      = some "Failed to export ZFS pool: zpcachyos, please perform the operation manually." := by
  decide

/-- C3 (amended): if the normal export fails and the forced export (offered
by one confirmation) also fails or is declined, `export_zfs_pool` reports the
failure, telling the user to finish manually, and terminates the process via
`print_error_and_exit` — so teardown does *not* continue for the remaining
resources.  A successful normal export, or a failed one recovered by an
accepted and successful forced export, returns normally. -/
theorem c3_export_failure_is_fatal (d : BlockDevice) (env : ExportEnv) :
    (env.firstTry = Outcome.failure →
        (env.allowForce = false ∨ env.forcedTry = Outcome.failure) →
        (export_zfs_pool_run d env).2
          = some ("Failed to export ZFS pool: " ++ d.get_id
              ++ ", please perform the operation manually."))
      ∧ (env.firstTry = Outcome.success →
          export_zfs_pool_run d env = ([Call.zpoolExport d.get_id false], none))
      ∧ (env.firstTry = Outcome.failure → env.allowForce = true →
          env.forcedTry = Outcome.success →
          export_zfs_pool_run d env
            = ([Call.zpoolExport d.get_id false, Call.zpoolExport d.get_id true],
                none)) := by
  obtain ⟨o1, af, o2⟩ := env
  refine ⟨fun h1 h2 => ?_, fun h1 => ?_, fun h1 h2 h3 => ?_⟩
  · subst h1
    rcases h2 with h2 | h2
    · subst h2
      simp [export_zfs_pool_run]
    · subst h2
      cases af <;> simp [export_zfs_pool_run]
  · subst h1
    simp [export_zfs_pool_run]
  · subst h1; subst h2; subst h3
    simp [export_zfs_pool_run]

/-- Witness for the amended C3: a concrete pool whose normal and forced
exports both fail makes the process exit with the manual-follow-up message. -/
theorem c3_export_failure_is_fatal_witness :
    (export_zfs_pool_run
        (BlockDevice.mk "/dev/sdb2" "zfs_member" "uz2" none (some "zpdata") none)
        (ExportEnv.mk Outcome.failure false Outcome.success)).2
      = some ("Failed to export ZFS pool: "
          ++ (BlockDevice.mk "/dev/sdb2" "zfs_member" "uz2" none (some "zpdata") none).get_id
          ++ ", please perform the operation manually.") :=
  (c3_export_failure_is_fatal
      (BlockDevice.mk "/dev/sdb2" "zfs_member" "uz2" none (some "zpdata") none)
      (ExportEnv.mk Outcome.failure false Outcome.success)).1 rfl (Or.inl rfl)

/-- C1 (counterexample): with two imported pools of which the first fails both
its normal and forced export, teardown terminates inside the export phase and
the second pool never receives its export call — refuting "exactly one export
call for each of the M imported pools ... regardless of individual failures
within a phase". -/
theorem c1_counterexample :
    (teardown "/tmp/cachyos-root" [] []
          [(BlockDevice.mk "/dev/sdb1" "zfs_member" "uz1" none (some "pool1") none,
              ExportEnv.mk Outcome.failure true Outcome.failure),
            (BlockDevice.mk "/dev/sdb2" "zfs_member" "uz2" none (some "pool2") none,
              ExportEnv.mk Outcome.success false Outcome.success)]).1
        = [Call.umount "/tmp/cachyos-root" true,
            Call.zpoolExport "pool1" false, Call.zpoolExport "pool1" true]
      ∧ (teardown "/tmp/cachyos-root" [] []
          [(BlockDevice.mk "/dev/sdb1" "zfs_member" "uz1" none (some "pool1") none,
              ExportEnv.mk Outcome.failure true Outcome.failure),
            (BlockDevice.mk "/dev/sdb2" "zfs_member" "uz2" none (some "pool2") none,
              ExportEnv.mk Outcome.success false Outcome.success)]).1.count
          (Call.zpoolExport "pool2" false) = 0 := by
  decide

/-- C1 (amended): teardown runs after the chroot capability returns whatever
status it reported, and emits, in this fixed order: one recursive unmount of
the root mount tree, then exactly one close call per opened encrypted volume,
then exactly one key-unload call per loaded dataset key, then the export
phase; failures in the unmount, close and unload phases never prevent the
later phases.  In the export phase, however, a pool whose normal export fails
and whose forced export fails or is declined terminates the process, skipping
the remaining pools; when every pool's export succeeds or is recovered by an
accepted, successful forced export, exactly one normal export call is issued
for each of the M imported pools and teardown returns normally. -/
theorem c1_teardown_order (rootMp : String) (chrootReported : Outcome)
    (luks : List (BlockDevice × Outcome)) (keys : List (String × Outcome))
    (pools : List (BlockDevice × ExportEnv)) :
    session_teardown_after_chroot chrootReported rootMp luks keys pools
        = teardown rootMp luks keys pools
      ∧ (teardown rootMp luks keys pools).1
          = [Call.umount rootMp true]
            ++ luks.map (fun p => Call.luksClose ("luks-" ++ p.1.uuid))
            ++ keys.map (fun p => Call.zfsUnloadKey p.1)
            ++ (runExports pools).1
      ∧ ((∀ pe ∈ pools, pe.2.firstTry = Outcome.success
            ∨ (pe.2.allowForce = true ∧ pe.2.forcedTry = Outcome.success)) →
          (teardown rootMp luks keys pools).2 = none
            ∧ (runExports pools).1.countP Call.isNormalExport = pools.length) := by
  refine ⟨rfl, ?_, fun h => ?_⟩
  · simp [teardown, close_device_run, unload_zfs_key_run, flatten_map_singleton]
  · have main : ∀ ps : List (BlockDevice × ExportEnv),
        (∀ pe ∈ ps, pe.2.firstTry = Outcome.success
          ∨ (pe.2.allowForce = true ∧ pe.2.forcedTry = Outcome.success)) →
        (runExports ps).2 = none
          ∧ (runExports ps).1.countP Call.isNormalExport = ps.length := by
      intro ps hps
      induction ps with
      | nil => simp [runExports]
      | cons p ps ih =>
        have hp := hps p (List.mem_cons_self p ps)
        have hrest := ih (fun pe hpe => hps pe (List.mem_cons_of_mem p hpe))
        rcases hp with hp | ⟨haf, hft⟩
        · simp [runExports, export_zfs_pool_run, hp, hrest.1, hrest.2,
            List.countP_cons, Call.isNormalExport]
        · rcases hft1 : p.2.firstTry with _ | _
          · simp [runExports, export_zfs_pool_run, hft1, hrest.1, hrest.2,
              List.countP_cons, Call.isNormalExport]
          · simp [runExports, export_zfs_pool_run, hft1, haf, hft, hrest.1,
              hrest.2, List.countP_cons, Call.isNormalExport]
    exact ⟨by simp [teardown, (main pools h).1], (main pools h).2⟩

/-- Witness for the amended C1: a session with one encrypted volume, one
loaded key and one recoverable pool unwinds in the fixed order. -/
theorem c1_teardown_order_witness :
    (teardown "/tmp/cachyos-root"
          [(BlockDevice.mk "/dev/sda2" "crypto_LUKS" "ul1" none none none,
              Outcome.failure)]
          [("zpcachyos/ROOT", Outcome.failure)]
          [(BlockDevice.mk "/dev/sdb1" "zfs_member" "uz1" none (some "zpcachyos") none,
              ExportEnv.mk Outcome.failure true Outcome.success)]).2 = none
      ∧ (runExports
          [(BlockDevice.mk "/dev/sdb1" "zfs_member" "uz1" none (some "zpcachyos") none,
              ExportEnv.mk Outcome.failure true Outcome.success)]).1.countP
          Call.isNormalExport
        = [(BlockDevice.mk "/dev/sdb1" "zfs_member" "uz1" none (some "zpcachyos") none,
              ExportEnv.mk Outcome.failure true Outcome.success)].length :=
  (c1_teardown_order "/tmp/cachyos-root" Outcome.failure
      [(BlockDevice.mk "/dev/sda2" "crypto_LUKS" "ul1" none none none,
          Outcome.failure)]
      [("zpcachyos/ROOT", Outcome.failure)]
      [(BlockDevice.mk "/dev/sdb1" "zfs_member" "uz1" none (some "zpcachyos") none,
          ExportEnv.mk Outcome.failure true Outcome.success)]).2.2
    (by decide)

/-! ## BTRFS subvolumes (src/btrfs.rs) -/

/-- `BTRFSSubVolume` (src/btrfs.rs). -/
structure BTRFSSubVolume where
  device : BlockDevice
  subvolume_id : Nat
  subvolume_name : String
  deriving Repr, DecidableEq

/-- `BTRFSSubVolume::get_id` (src/btrfs.rs): the owning device's identity
composed with the subvolume id. -/
def BTRFSSubVolume.get_id (s : BTRFSSubVolume) : String :=
  s.device.get_id ++ "-" ++ toString s.subvolume_id

/-- Rust's `str::trim`: leading and trailing whitespace removed. -/
def trimChars (s : List Char) : List Char :=
  ((s.dropWhile Char.isWhitespace).reverse.dropWhile Char.isWhitespace).reverse

/-- Rust's `str::parse::<usize>`: an optional leading `+` sign followed by at
least one digit (overflow, irrelevant here, is not modelled). -/
def parseNat? (s : List Char) : Option Nat :=
  let digits := match s with
    | '+' :: rest => rest
    | _ => s
  if digits = [] then none
  else if digits.all Char.isDigit then
    some (digits.foldl (fun n c => n * 10 + (c.toNat - '0'.toNat)) 0)
  else none

/-- How one `list_subvolumes` invocation ends: a fatal mount failure (the
root-style mount uses `gracefully_fail = false`, so `print_error_and_exit`
runs), a panic while slicing or parsing the captured listing, or the parsed
subvolumes. -/
inductive ListSubvolsExit where
  | fatalMountFailure
  | panicked
  | ok (subs : List BTRFSSubVolume)
  deriving Repr, DecidableEq

/-- The row loop of `list_subvolumes` (src/btrfs.rs): rows with exactly four
whitespace-separated fields contribute a subvolume (field 0 the id, field 3
the name); `.snapshots` names are dropped unless requested; a non-numeric id
panics on `unwrap` (`none`). -/
def parseSubvolRows (device : BlockDevice) (include_dot_snapshots : Bool) :
    List (List Char) → Option (List BTRFSSubVolume)
  | [] => some []
  | row :: rest =>
    match splitWS row with
    | [f0, _, _, f3] =>
      if (dropPref? ".snapshots".data f3).isSome && !include_dot_snapshots then
        parseSubvolRows device include_dot_snapshots rest
      else
        match parseNat? f0 with
        | none => none
        | some id =>
          (parseSubvolRows device include_dot_snapshots rest).map
            (fun subs => BTRFSSubVolume.mk device id (String.mk f3) :: subs)
    | _ => parseSubvolRows device include_dot_snapshots rest

/-- `list_subvolumes` (src/btrfs.rs): mounts the device at a scoped temporary
mount point `mp`, captures the subvolume listing, drops the two header lines
(Rust `&lines[2..]`, which *panics* when fewer than two lines came back),
parses the rows, seeds the implicit root subvolume (id 5, name "/"), and
unmounts — but the unmount call is only reached on the success path. -/
def list_subvolumes_run (device : BlockDevice) (include_dot_snapshots : Bool)
    (mp : String) (mount_reported : Outcome) (listing_output : String) :
    List Call × ListSubvolsExit :=
  let mountCall := Call.mount device.name mp []
  match mount_reported with
  | Outcome.failure => ([mountCall], ListSubvolsExit.fatalMountFailure)
  | Outcome.success =>
    let calls := [mountCall, Call.listSubvols mp]
    let lines := splitOnChar '\n' (trimChars listing_output.data)
    if lines.length < 2 then (calls, ListSubvolsExit.panicked)
    else
      match parseSubvolRows device include_dot_snapshots (lines.drop 2) with
      | none => (calls, ListSubvolsExit.panicked)
      | some parsed =>
        (calls ++ [Call.umount mp false],
          ListSubvolsExit.ok (BTRFSSubVolume.mk device 5 "/" :: parsed))

/-- A concrete BTRFS device used by the scenario theorems. -/
def scenarioDevice : BlockDevice :=
  BlockDevice.mk "/dev/sda2" "btrfs" "ub1" none none none

/-- The subvolume set of the spec's scenario: `[{5,"/"},{256,"@"},{257,"@home"}]`. -/
def scenarioSubvols : List BTRFSSubVolume :=
  [BTRFSSubVolume.mk scenarioDevice 5 "/",
    BTRFSSubVolume.mk scenarioDevice 256 "@",
    BTRFSSubVolume.mk scenarioDevice 257 "@home"]

/-- C5: on captured listing output that fails to parse, `list_subvolumes`
panics *before* its unmount call, leaking the temporary mount — here shown
for an empty capture (fewer than the two expected header lines) — whereas on
well-formed output the unmount is the last call.  The spec mandates unmount
on every exit path, so the leak on the panic path contradicts it. -/
theorem c5_unmount_skipped_on_parse_panic :
    (list_subvolumes_run scenarioDevice true "/tmp/mp" Outcome.success "").2
        = ListSubvolsExit.panicked
      ∧ (list_subvolumes_run scenarioDevice true "/tmp/mp" Outcome.success "").1
          = [Call.mount "/dev/sda2" "/tmp/mp" [], Call.listSubvols "/tmp/mp"]
      ∧ (Call.umount "/tmp/mp" false)
          ∉ (list_subvolumes_run scenarioDevice true "/tmp/mp" Outcome.success "").1
      ∧ (list_subvolumes_run scenarioDevice true "/tmp/mp" Outcome.success
            "ID gen top path\n-- --- --- ----\n256 3607 5 @")
          = ([Call.mount "/dev/sda2" "/tmp/mp" [], Call.listSubvols "/tmp/mp",
              Call.umount "/tmp/mp" false],
            ListSubvolsExit.ok
              [BTRFSSubVolume.mk scenarioDevice 5 "/",
                BTRFSSubVolume.mk scenarioDevice 256 "@"]) := by
  refine ⟨rfl, rfl, by decide, rfl⟩

/-! ## Subvolume resolution policy and per-session cache (src/btrfs.rs,
`get_btrfs_subvolume`) -/

/-- The selection policy of `get_btrfs_subvolume` (src/btrfs.rs) once the
subvolume list is known.  `presetAccept` is the user's answer to the one
opt-in preset confirmation (only ever asked when a subvolume named `@`
exists and the role is "root"); `picker` is the external disambiguation
picker.  Returns the chosen subvolume together with whether the preset
confirmation was shown and whether the picker was consulted. -/
def get_btrfs_subvolume_choice (known : List BTRFSSubVolume)
    (device_name : String) (presetAccept : Bool)
    (picker : List BTRFSSubVolume → BTRFSSubVolume) :
    BTRFSSubVolume × Bool × Bool :=
  match known with
  | [only] => (only, false, false)
  | _ =>
    if device_name = "root" then
      match known.find? (fun s => s.subvolume_name == "@") with
      | some sv =>
        if presetAccept then (sv, true, false) else (picker known, true, true)
      | none => (picker known, false, true)
    else (picker known, false, true)

/-- `HashMap` view of the per-session subvolume cache, keyed by device uuid. -/
def lookupCache (cache : List (String × List BTRFSSubVolume)) (k : String) :
    Option (List BTRFSSubVolume) :=
  (cache.find? (fun p => p.1 == k)).map (fun p => p.2)

/-- `get_btrfs_subvolume` (src/btrfs.rs): consult the per-session cache keyed
by the device uuid; on a miss invoke the listing capability (`lister`) and
populate the cache; then apply the selection policy.  The final component
records whether the listing capability was invoked. -/
def get_btrfs_subvolume (lister : BlockDevice → List BTRFSSubVolume)
    (device : BlockDevice) (cache : List (String × List BTRFSSubVolume))
    (device_name : String) (presetAccept : Bool)
    (picker : List BTRFSSubVolume → BTRFSSubVolume) :
    BTRFSSubVolume × List (String × List BTRFSSubVolume) × Bool :=
  match lookupCache cache device.uuid with
  | some known =>
    ((get_btrfs_subvolume_choice known device_name presetAccept picker).1,
      cache, false)
  | none =>
    let subs := lister device
    ((get_btrfs_subvolume_choice subs device_name presetAccept picker).1,
      cache ++ [(device.uuid, subs)], true)

/-- C7: the two-tier selection policy.  Exactly one known subvolume is
returned without any prompt; with several subvolumes, role "root", an `@`
subvolume present and the preset confirmation accepted, that `@` subvolume is
returned without the external picker; in every other case (declined, `@`
absent, or role not "root") the external picker is consulted.  On the spec's
scenario `[{5,"/"},{256,"@"},{257,"@home"}]`, role "root", accepting user,
the result is the subvolume with id 256, picker unconsulted. -/
theorem c7_subvolume_selection_policy (known : List BTRFSSubVolume)
    (device_name : String) (presetAccept : Bool)
    (picker : List BTRFSSubVolume → BTRFSSubVolume) :
    (∀ only, known = [only] →
        get_btrfs_subvolume_choice known device_name presetAccept picker
          = (only, false, false))
      ∧ (known.length ≠ 1 → device_name = "root" →
          ∀ sv, known.find? (fun s => s.subvolume_name == "@") = some sv →
          presetAccept = true →
          get_btrfs_subvolume_choice known device_name presetAccept picker
            = (sv, true, false))
      ∧ (known.length ≠ 1 → device_name = "root" →
          ∀ sv, known.find? (fun s => s.subvolume_name == "@") = some sv →
          presetAccept = false →
          get_btrfs_subvolume_choice known device_name presetAccept picker
            = (picker known, true, true))
      ∧ (known.length ≠ 1 → device_name = "root" →
          known.find? (fun s => s.subvolume_name == "@") = none →
          get_btrfs_subvolume_choice known device_name presetAccept picker
            = (picker known, false, true))
      ∧ (known.length ≠ 1 → device_name ≠ "root" →
          get_btrfs_subvolume_choice known device_name presetAccept picker
            = (picker known, false, true))
      ∧ (get_btrfs_subvolume_choice scenarioSubvols "root" true picker
          = (BTRFSSubVolume.mk scenarioDevice 256 "@", true, false)) := by
  refine ⟨fun only h => by subst h; rfl, ?_, ?_, ?_, ?_, rfl⟩ <;>
  · intro hlen hroot
    match known with
    | [] =>
      first
      | (intro sv hfind hpa; simp at hfind)
      | (intro hfind; simp [get_btrfs_subvolume_choice, hroot, hfind])
      | simp [get_btrfs_subvolume_choice, hroot]
    | [x] => exact absurd rfl hlen
    | x :: y :: t =>
      first
      | (intro sv hfind hpa
         simp [get_btrfs_subvolume_choice, hroot, hfind, hpa])
      | (intro hfind; simp [get_btrfs_subvolume_choice, hroot, hfind])
      | simp [get_btrfs_subvolume_choice, hroot]

/-- Witness for C7: on the scenario list with the preset accepted, the `@`
subvolume (id 256) is chosen without the picker. -/
theorem c7_subvolume_selection_policy_witness :
    get_btrfs_subvolume_choice scenarioSubvols "root" true
        (fun _ => BTRFSSubVolume.mk scenarioDevice 5 "/")
      = (BTRFSSubVolume.mk scenarioDevice 256 "@", true, false) :=
  (c7_subvolume_selection_policy scenarioSubvols "root" true
      (fun _ => BTRFSSubVolume.mk scenarioDevice 5 "/")).2.1
    (by decide) rfl (BTRFSSubVolume.mk scenarioDevice 256 "@") (by decide) rfl

theorem lookupCache_after_resolve (lister : BlockDevice → List BTRFSSubVolume)
    (device : BlockDevice) (cache : List (String × List BTRFSSubVolume))
    (device_name : String) (presetAccept : Bool)
    (picker : List BTRFSSubVolume → BTRFSSubVolume) :
    (lookupCache
        (get_btrfs_subvolume lister device cache device_name presetAccept picker).2.1
        device.uuid).isSome = true := by
  cases h : lookupCache cache device.uuid with
  | some known =>
    simp only [get_btrfs_subvolume]
    rw [h]
    simp [h]
  | none =>
    simp only [get_btrfs_subvolume]
    rw [h]
    simp only [lookupCache] at h ⊢
    have hf : cache.find? (fun p => p.1 == device.uuid) = none := by
      cases hx : cache.find? (fun p => p.1 == device.uuid) <;> simp [hx] at h ⊢
    simp [List.find?_append, hf, List.find?, Option.or]

/-- C9: within one session (subvolume cache starting empty), two resolutions
for the same device identity invoke the listing capability exactly once in
total — the first lists, the second is served from the cache, and this holds
from *any* starting cache: a resolution never lists when a resolution for the
same identity already ran — while a third resolution for a different device
identity invokes the listing capability again. -/
theorem c9_subvolume_cache_coherence (lister : BlockDevice → List BTRFSSubVolume)
    (d d' : BlockDevice) (cache : List (String × List BTRFSSubVolume))
    (n1 n2 n3 : String) (a1 a2 a3 : Bool)
    (k1 k2 k3 : List BTRFSSubVolume → BTRFSSubVolume)
    (hne : d'.uuid ≠ d.uuid) :
    ((get_btrfs_subvolume lister d [] n1 a1 k1).2.2 = true)
      ∧ ((get_btrfs_subvolume lister d
            (get_btrfs_subvolume lister d cache n1 a1 k1).2.1 n2 a2 k2).2.2 = false)
      ∧ ((get_btrfs_subvolume lister d'
            (get_btrfs_subvolume lister d
              (get_btrfs_subvolume lister d [] n1 a1 k1).2.1 n2 a2 k2).2.1
            n3 a3 k3).2.2 = true) := by
  have hne' : d.uuid ≠ d'.uuid := Ne.symm hne
  have hhit : ∀ c n a k, (lookupCache c d.uuid).isSome = true →
      (get_btrfs_subvolume lister d c n a k).2.2 = false := by
    intro c n a k h
    rw [Option.isSome_iff_exists] at h
    obtain ⟨known, hk⟩ := h
    simp only [get_btrfs_subvolume]
    rw [hk]
  have hmiss : ∀ (dev : BlockDevice) c n a k, lookupCache c dev.uuid = none →
      (get_btrfs_subvolume lister dev c n a k).2.2 = true := by
    intro dev c n a k h
    simp only [get_btrfs_subvolume]
    rw [h]
  refine ⟨hmiss d [] n1 a1 k1 rfl, ?_, ?_⟩
  · exact hhit _ n2 a2 k2 (lookupCache_after_resolve lister d cache n1 a1 k1)
  · have h1 : (get_btrfs_subvolume lister d [] n1 a1 k1).2.1
        = [(d.uuid, lister d)] := by
      simp only [get_btrfs_subvolume, lookupCache]
      rfl
    have hcc : lookupCache [(d.uuid, lister d)] d.uuid = some (lister d) := by
      simp [lookupCache, List.find?]
    have hc2 : (get_btrfs_subvolume lister d [(d.uuid, lister d)] n2 a2 k2).2.1
        = [(d.uuid, lister d)] := by
      simp only [get_btrfs_subvolume]
      rw [hcc]
    rw [h1, hc2]
    have hb : (d.uuid == d'.uuid) = false := beq_eq_false_iff_ne.mpr hne'
    exact hmiss d' _ n3 a3 k3 (by simp [lookupCache, List.find?, hb])

/-- Witness for C9: a two-device session with concrete devices — the listing
capability fires on first resolution, is skipped on the repeat, and fires
again for the second device. -/
theorem c9_subvolume_cache_coherence_witness :
    ((get_btrfs_subvolume (fun _ => scenarioSubvols) scenarioDevice [] "root" true
        (fun _ => BTRFSSubVolume.mk scenarioDevice 5 "/")).2.2 = true)
      ∧ ((get_btrfs_subvolume (fun _ => scenarioSubvols) scenarioDevice
            (get_btrfs_subvolume (fun _ => scenarioSubvols) scenarioDevice []
              "root" true (fun _ => BTRFSSubVolume.mk scenarioDevice 5 "/")).2.1
            "home" true (fun _ => BTRFSSubVolume.mk scenarioDevice 5 "/")).2.2
          = false)
      ∧ ((get_btrfs_subvolume (fun _ => scenarioSubvols)
            (BlockDevice.mk "/dev/sdb2" "btrfs" "ub2" none none none)
            (get_btrfs_subvolume (fun _ => scenarioSubvols) scenarioDevice
              (get_btrfs_subvolume (fun _ => scenarioSubvols) scenarioDevice []
                "root" true (fun _ => BTRFSSubVolume.mk scenarioDevice 5 "/")).2.1
              "home" true (fun _ => BTRFSSubVolume.mk scenarioDevice 5 "/")).2.1
            "var" true (fun _ => BTRFSSubVolume.mk scenarioDevice 5 "/")).2.2
          = true) :=
  c9_subvolume_cache_coherence (fun _ => scenarioSubvols) scenarioDevice
    (BlockDevice.mk "/dev/sdb2" "btrfs" "ub2" none none none) []
    "root" "home" "var" true true true
    (fun _ => BTRFSSubVolume.mk scenarioDevice 5 "/")
    (fun _ => BTRFSSubVolume.mk scenarioDevice 5 "/")
    (fun _ => BTRFSSubVolume.mk scenarioDevice 5 "/")
    (by decide)

/-! ## Mount-planner BTRFS subvolume selection (src/main.rs, fstab loop) -/

/-- The first `subvolid=` mount option, its value extracted with
`trim_start_matches` (Rust `find_map` over the options). -/
def fstabOptSubvolId (opts : List String) : Option String :=
  opts.findSome? (fun o =>
    if (dropPref? "subvolid=".data o.data).isSome then
      some (String.mk (stripRuns "subvolid=".data o.data))
    else none)

/-- The first `subvol=` mount option, its value extracted with
`trim_start_matches`. -/
def fstabOptSubvol (opts : List String) : Option String :=
  opts.findSome? (fun o =>
    if (dropPref? "subvol=".data o.data).isSome then
      some (String.mk (stripRuns "subvol=".data o.data))
    else none)

/-- How the planner's per-entry subvolume selection ends: `panicked` models
the `unwrap` on a non-numeric `subvolid=` value and the index `[0]` on an
empty subvolume list. -/
inductive SubvolSelect where
  | panicked
  | selected (sv : Option BTRFSSubVolume) (rootFallbackWarned : Bool)
  deriving Repr, DecidableEq

/-- The BTRFS subvolume selection of the fstab loop (src/main.rs): an
explicit `subvolid=` option wins and is looked up by id; otherwise a
`subvol=` option is matched by exact name or by `strip_prefix('/')` (with
`unwrap_or_default`, i.e. the empty string when there is no leading
separator); with neither option, the first known subvolume (the cached root)
is used with a warning. -/
def select_fstab_subvolume (known : List BTRFSSubVolume) (opts : List String) :
    SubvolSelect :=
  match fstabOptSubvolId opts with
  | some idStr =>
    match parseNat? idStr.data with
    | none => SubvolSelect.panicked
    | some id =>
      SubvolSelect.selected (known.find? (fun sv => sv.subvolume_id == id)) false
  | none =>
    match fstabOptSubvol opts with
    | some name =>
      SubvolSelect.selected
        (known.find? (fun sv =>
          sv.subvolume_name == name
            || (dropPref? ['/'] name.data).getD [] == sv.subvolume_name.data))
        false
    | none =>
      match known with
      | [] => SubvolSelect.panicked
      | k0 :: _ => SubvolSelect.selected (some k0) true

theorem find?_congr {α : Type} (p q : α → Bool) (l : List α)
    (h : ∀ a ∈ l, p a = q a) : l.find? p = l.find? q := by
  induction l with
  | nil => rfl
  | cons a t ih =>
    have ha := h a (List.mem_cons_self a t)
    cases hq : q a with
    | true => rw [List.find?_cons_of_pos _ (ha.trans hq), List.find?_cons_of_pos _ hq]
    | false =>
      rw [List.find?_cons_of_neg _ (by simp [ha.trans hq]),
        List.find?_cons_of_neg _ (by simp [hq])]
      exact ih (fun x hx => h x (List.mem_cons_of_mem _ hx))

theorem subvol_name_match_eq (sv : BTRFSSubVolume) (name : String)
    (hne : sv.subvolume_name ≠ "") :
    (sv.subvolume_name == name
        || (dropPref? ['/'] name.data).getD [] == sv.subvolume_name.data)
      = (decide (sv.subvolume_name = name)
          || decide (name.data = '/' :: sv.subvolume_name.data)) := by
  have hdata : sv.subvolume_name.data ≠ [] := by
    intro hc
    exact hne (String.ext hc)
  rw [Bool.eq_iff_iff]
  simp only [Bool.or_eq_true, beq_iff_eq, decide_eq_true_eq]
  cases hn : name.data with
  | nil =>
    simp [dropPref?, hn, hdata, Ne.symm hdata]
  | cons c rest =>
    by_cases hc : c = '/'
    · subst hc
      simp [dropPref?, List.cons.injEq, eq_comm]
    · simp [dropPref?, hc, hdata, Ne.symm hdata, Ne.symm hc]

/-- C8: the planner's subvolume-selection priority.  A `subvolid=` option
wins: the subvolume is looked up by that id alone.  Otherwise a `subvol=`
option selects, over discovered subvolume lists (whose names are nonempty),
the first subvolume whose name equals the option value exactly or after the
value loses one leading path separator — so `subvol=/@home` selects the
subvolume literally named `@home`.  With neither option the first (root)
subvolume of the cache is selected with a warning. -/
theorem c8_fstab_subvolume_priority (known : List BTRFSSubVolume)
    (opts : List String) :
    (∀ idStr n, fstabOptSubvolId opts = some idStr →
        parseNat? idStr.data = some n →
        select_fstab_subvolume known opts
          = SubvolSelect.selected (known.find? (fun sv => sv.subvolume_id == n))
              false)
      ∧ (fstabOptSubvolId opts = none →
          ∀ name, fstabOptSubvol opts = some name →
          (∀ sv ∈ known, sv.subvolume_name ≠ "") →
          select_fstab_subvolume known opts
            = SubvolSelect.selected
                (known.find? (fun sv =>
                  decide (sv.subvolume_name = name)
                    || decide (name.data = '/' :: sv.subvolume_name.data)))
                false)
      ∧ (fstabOptSubvolId opts = none → fstabOptSubvol opts = none →
          ∀ k0 t, known = k0 :: t →
          select_fstab_subvolume known opts
            = SubvolSelect.selected (some k0) true)
      ∧ (select_fstab_subvolume scenarioSubvols ["rw", "subvol=/@home"]
          = SubvolSelect.selected
              (some (BTRFSSubVolume.mk scenarioDevice 257 "@home")) false) := by
  refine ⟨fun idStr n h1 h2 => ?_, fun h1 name h2 hnames => ?_,
    fun h1 h2 k0 t hk => ?_, rfl⟩
  · simp only [select_fstab_subvolume, h1, h2]
  · simp only [select_fstab_subvolume, h1, h2]
    rw [find?_congr _ _ known (fun sv hsv => subvol_name_match_eq sv name (hnames sv hsv))]
  · simp only [select_fstab_subvolume, h1, h2, hk]

/-- Witness for C8: over the scenario subvolumes, `subvol=/@home` resolves to
the `@home` subvolume through the spec-side characterization. -/
theorem c8_fstab_subvolume_priority_witness :
    select_fstab_subvolume scenarioSubvols ["rw", "subvol=/@home"]
      = SubvolSelect.selected
          (scenarioSubvols.find? (fun sv =>
            decide (sv.subvolume_name = "/@home")
              || decide (("/@home" : String).data = '/' :: sv.subvolume_name.data)))
          false :=
  (c8_fstab_subvolume_priority scenarioSubvols ["rw", "subvol=/@home"]).2.1
    (by decide) "/@home" (by decide) (by decide)

/-! The nonempty-name hypothesis of C8 is an invariant of discovery:
`split_whitespace` never yields an empty field, so every discovered
subvolume name — and the seeded root name `/` — is nonempty. -/

theorem splitWSAux_mem_ne_nil :
    ∀ (s acc w : List Char), w ∈ splitWSAux s acc → w ≠ [] := by
  intro s
  induction s with
  | nil =>
    intro acc w hw
    by_cases h : acc = []
    · simp [splitWSAux, h] at hw
    · simp only [splitWSAux, if_neg h, List.mem_singleton] at hw
      subst hw
      simpa using h
  | cons c cs ih =>
    intro acc w hw
    simp only [splitWSAux] at hw
    by_cases hws : c.isWhitespace
    · rw [if_pos hws] at hw
      by_cases h : acc = []
      · rw [if_pos h] at hw
        exact ih [] w hw
      · rw [if_neg h] at hw
        rcases List.mem_cons.mp hw with hw | hw
        · subst hw
          simpa using h
        · exact ih [] w hw
    · rw [if_neg hws] at hw
      exact ih (c :: acc) w hw

theorem parseSubvolRows_names_ne_empty (device : BlockDevice) (inc : Bool) :
    ∀ rows parsed, parseSubvolRows device inc rows = some parsed →
      ∀ sv ∈ parsed, sv.subvolume_name ≠ "" := by
  intro rows
  induction rows with
  | nil =>
    intro parsed hp sv hsv
    simp only [parseSubvolRows, Option.some.injEq] at hp
    subst hp
    simp at hsv
  | cons row rest ih =>
    intro parsed hp sv hsv
    simp only [parseSubvolRows] at hp
    rcases hsp : splitWS row with _ | ⟨f0, _ | ⟨f1, _ | ⟨f2, _ | ⟨f3, t⟩⟩⟩⟩ <;>
      rw [hsp] at hp
    · exact ih parsed hp sv hsv
    · exact ih parsed hp sv hsv
    · exact ih parsed hp sv hsv
    · exact ih parsed hp sv hsv
    · cases t with
      | cons x t2 => exact ih parsed hp sv hsv
      | nil =>
        have hf3 : f3 ≠ [] :=
          splitWSAux_mem_ne_nil row [] f3 (by rw [splitWS] at hsp; rw [hsp]; simp)
        have hp' : (if ((dropPref? ".snapshots".data f3).isSome && !inc) = true then
              parseSubvolRows device inc rest
            else
              match parseNat? f0 with
              | none => none
              | some id =>
                (parseSubvolRows device inc rest).map
                  (fun subs => BTRFSSubVolume.mk device id (String.mk f3) :: subs))
            = some parsed := hp
        by_cases hsnap : ((dropPref? ".snapshots".data f3).isSome && !inc) = true
        · rw [if_pos hsnap] at hp'
          exact ih parsed hp' sv hsv
        · rw [if_neg hsnap] at hp'
          cases hn : parseNat? f0 with
          | none => rw [hn] at hp'; cases hp'
          | some id =>
            rw [hn] at hp'
            cases hrest : parseSubvolRows device inc rest with
            | none => rw [hrest] at hp'; cases hp'
            | some subs =>
              rw [hrest] at hp'
              simp at hp'
              subst hp'
              rcases List.mem_cons.mp hsv with hsv | hsv
              · subst hsv
                intro hc
                exact hf3 (by simpa using congrArg String.data hc)
              · exact ih subs hrest sv hsv

/-- Every subvolume produced by a successful `list_subvolumes` run has a
nonempty name — the invariant under which C8's name matching is stated. -/
theorem list_subvolumes_names_ne_empty (device : BlockDevice) (inc : Bool)
    (mp : String) (o : Outcome) (out : String) (subs : List BTRFSSubVolume)
    (h : (list_subvolumes_run device inc mp o out).2 = ListSubvolsExit.ok subs) :
    ∀ sv ∈ subs, sv.subvolume_name ≠ "" := by
  intro sv hsv
  cases o with
  | failure => cases h
  | success =>
    simp only [list_subvolumes_run] at h
    by_cases hlen : (splitOnChar '\n' (trimChars out.data)).length < 2
    · rw [if_pos hlen] at h
      cases h
    · rw [if_neg hlen] at h
      cases hp : parseSubvolRows device inc
          ((splitOnChar '\n' (trimChars out.data)).drop 2) with
      | none => rw [hp] at h; cases h
      | some parsed =>
        rw [hp] at h
        simp only [ListSubvolsExit.ok.injEq] at h
        subst h
        rcases List.mem_cons.mp hsv with hsv | hsv
        · subst hsv
          simp
        · exact parseSubvolRows_names_ne_empty device inc _ parsed hp sv hsv

/-- Witness-style corollary: the scenario subvolume list satisfies the
nonempty-name invariant. -/
theorem scenarioSubvols_names_ne_empty :
    ∀ sv ∈ scenarioSubvols, sv.subvolume_name ≠ "" := by decide

/-! ## Mount-planner device resolution (src/main.rs, fstab loop) -/

theorem mk_data (l : List Char) : (String.mk l).data = l := rfl

theorem splitOnCharAux_sep (c : Char) (v : List Char) :
    ∀ k acc, c ∉ k →
      splitOnCharAux c (k ++ c :: v) acc
        = (acc.reverse ++ k) :: splitOnCharAux c v [] := by
  intro k
  induction k with
  | nil => intro acc _; simp [splitOnCharAux]
  | cons a k' ih =>
    intro acc hk
    have ha : a ≠ c := fun hc => hk (hc ▸ List.mem_cons_self a k')
    have hk' : c ∉ k' := fun hc => hk (List.mem_cons_of_mem a hc)
    simp only [List.cons_append, splitOnCharAux, List.append_eq]
    rw [if_neg ha, ih (a :: acc) hk']
    simp

theorem splitOnCharAux_no_sep (c : Char) :
    ∀ v acc, c ∉ v → splitOnCharAux c v acc = [acc.reverse ++ v] := by
  intro v
  induction v with
  | nil => intro acc _; simp [splitOnCharAux]
  | cons a v' ih =>
    intro acc hv
    have ha : a ≠ c := fun hc => hv (hc ▸ List.mem_cons_self a v')
    have hv' : c ∉ v' := fun hc => hv (List.mem_cons_of_mem a hc)
    simp only [splitOnCharAux]
    rw [if_neg ha, ih (a :: acc) hv']
    simp

/-- Splitting `k ++ '=' :: v` at `c` with `c` in neither part yields the two
fields `[k, v]`. -/
theorem splitOnChar_pair {c : Char} {k v : List Char} (hk : c ∉ k) (hv : c ∉ v) :
    splitOnChar c (k ++ c :: v) = [k, v] := by
  unfold splitOnChar
  rw [splitOnCharAux_sep c v k [] hk, splitOnCharAux_no_sep c v [] hv]
  simp

/-- How the planner's per-entry device resolution ends: a malformed
source-spec is warned about and skipped, an unmatched one is warned about and
skipped, a matched one yields the device. -/
inductive ResolveOutcome where
  | malformed
  | notFound
  | found (d : BlockDevice)
  deriving Repr, DecidableEq

/-- The device resolution of the fstab loop (src/main.rs).  A source-spec
starting with `/dev` is resolved against the crypttab alias (compared with
each device's name and uuid) or by raw name equality; any other source-spec
is split at `=`: unless exactly two fields result the entry is skipped as
malformed, and otherwise the value field is compared against each device's
uuid, partuuid, label and partlabel — whichever key was written. -/
def resolve_fstab_device (crypttab_get : String → Option String)
    (devices : List BlockDevice) (spec : String) : ResolveOutcome :=
  if (dropPref? "/dev".data spec.data).isSome then
    let ct := crypttab_get spec
    match devices.find? (fun d =>
        ct == some d.name || ct == some d.uuid || d.name == spec) with
    | some d => ResolveOutcome.found d
    | none => ResolveOutcome.notFound
  else
    match splitOnChar '=' spec.data with
    | [_, v] =>
      match devices.find? (fun d =>
          d.uuid == String.mk v || d.partuuid == some (String.mk v)
            || d.label == some (String.mk v)
            || d.partlabel == some (String.mk v)) with
      | some d => ResolveOutcome.found d
      | none => ResolveOutcome.notFound
    | _ => ResolveOutcome.malformed

/-- C2 (counterexample): the planner does *not* funnel prefixed references
through the `matches_fstab_entry` contract: the entry `LABEL=x` resolves to a
device whose *partuuid* is `x` even though its label differs — a prefixed
reference matching a differently named attribute — while `matches_fstab_entry`
itself rejects that device for the same reference. -/
theorem c2_counterexample :
    resolve_fstab_device (fun _ => none)
        [BlockDevice.mk "/dev/sdc1" "ext4" "uc1" (some "x") (some "other") none]
        "LABEL=x"
        = ResolveOutcome.found
            (BlockDevice.mk "/dev/sdc1" "ext4" "uc1" (some "x") (some "other") none)
      ∧ (BlockDevice.mk "/dev/sdc1" "ext4" "uc1" (some "x") (some "other")
          none).label ≠ some "x"
      ∧ (BlockDevice.mk "/dev/sdc1" "ext4" "uc1" (some "x") (some "other")
          none).matches_fstab_entry "LABEL=x" = false := by
  decide

/-- C2 (amended): for a `KEY=value` source-spec (a single `=`, not a `/dev`
path), the planner compares the bare value against each candidate's uuid,
partuuid, label and partlabel regardless of the key — so a prefixed reference
may match a differently named attribute; a resolved device always comes from
the candidate list; and a source-spec starting with `/dev` resolves only
through the key-alias mapping (against name or uuid) or by raw name
equality.  `matches_fstab_entry` is not consulted. -/
theorem c2_planner_resolution_amended (ct : String → Option String)
    (devices : List BlockDevice) :
    (∀ k v : List Char, ('=' : Char) ∉ k → ('=' : Char) ∉ v →
        dropPref? "/dev".data (k ++ '=' :: v) = none →
        resolve_fstab_device ct devices (String.mk (k ++ '=' :: v))
          = match devices.find? (fun d =>
                d.uuid == String.mk v || d.partuuid == some (String.mk v)
                  || d.label == some (String.mk v)
                  || d.partlabel == some (String.mk v)) with
              | some d => ResolveOutcome.found d
              | none => ResolveOutcome.notFound)
      ∧ (∀ spec d, resolve_fstab_device ct devices spec = ResolveOutcome.found d →
          d ∈ devices)
      ∧ (∀ spec d, (dropPref? "/dev".data spec.data).isSome = true →
          resolve_fstab_device ct devices spec = ResolveOutcome.found d →
          ct spec = some d.name ∨ ct spec = some d.uuid ∨ d.name = spec) := by
  refine ⟨fun k v hk hv h3 => ?_, fun spec d h => ?_, fun spec d hdev h => ?_⟩
  · have h3' : (dropPref? "/dev".data (String.mk (k ++ '=' :: v)).data).isSome
        = false := by rw [mk_data, h3]; rfl
    simp only [resolve_fstab_device, h3', Bool.false_eq_true, if_false, mk_data,
      splitOnChar_pair hk hv]
  · simp only [resolve_fstab_device] at h
    by_cases hdev : (dropPref? "/dev".data spec.data).isSome
    · rw [if_pos hdev] at h
      cases hf : devices.find? (fun d =>
          ct spec == some d.name || ct spec == some d.uuid || d.name == spec) with
      | some d' =>
        simp only [hf] at h
        cases h
        exact List.mem_of_find?_eq_some hf
      | none => simp [hf] at h
    · rw [if_neg hdev] at h
      rcases hsp : splitOnChar '=' spec.data with _ | ⟨a, _ | ⟨b, _ | ⟨e, t⟩⟩⟩ <;>
        rw [hsp] at h
      · cases h
      · cases h
      · cases hf : devices.find? (fun d =>
            d.uuid == String.mk b || d.partuuid == some (String.mk b)
              || d.label == some (String.mk b)
              || d.partlabel == some (String.mk b)) with
        | some d' =>
          simp only [hf] at h
          cases h
          exact List.mem_of_find?_eq_some hf
        | none => simp [hf] at h
      · cases h
  · simp only [resolve_fstab_device, hdev, if_true] at h
    cases hf : devices.find? (fun d =>
        ct spec == some d.name || ct spec == some d.uuid || d.name == spec) with
    | some d' =>
      simp only [hf] at h
      cases h
      have hp := List.find?_some hf
      simp only [Bool.or_eq_true, beq_iff_eq] at hp
      tauto
    | none => simp [hf] at h

/-- Witness for the amended C2: the `LABEL=x` entry of the counterexample
resolved by the cross-attribute search over one concrete device. -/
theorem c2_planner_resolution_amended_witness :
    resolve_fstab_device (fun _ => none)
        [BlockDevice.mk "/dev/sdc1" "ext4" "uc1" (some "x") (some "other") none]
        (String.mk ("LABEL".data ++ '=' :: "x".data))
      = match [BlockDevice.mk "/dev/sdc1" "ext4" "uc1" (some "x") (some "other")
            none].find? (fun d =>
            d.uuid == String.mk "x".data
              || d.partuuid == some (String.mk "x".data)
              || d.label == some (String.mk "x".data)
              || d.partlabel == some (String.mk "x".data)) with
        | some d => ResolveOutcome.found d
        | none => ResolveOutcome.notFound :=
  (c2_planner_resolution_amended (fun _ => none)
      [BlockDevice.mk "/dev/sdc1" "ext4" "uc1" (some "x") (some "other") none]).1
    "LABEL".data "x".data (by decide) (by decide) (by decide)

end CachyChroot
